import Mathlib

/-!
Verification of the SMS webhook relay (src/app.py).

The program is a single-file Flask app.  We embed its logic shallowly:

* Python strings become `List Char` (`Str`); `str.strip` becomes `pyStrip`,
  `str.lower` becomes `toLowerStr`, and the substring test `needle in hay`
  becomes `containsSub`.
* The regex search `re.search(r'\b(10|[1-9])\b', body)` becomes
  `searchUrgency`, a left-to-right scan that attempts a match at every
  position (`matchAt`), trying the alternative `10` before `[1-9]` and
  checking the word boundaries `\b` on both sides.
* The two remote collaborators (Google-Sheets log store, push notifier) are
  external; their invocations are recorded in an `Effect` trace, and the
  data they would return (sheet contents, notifier success) are inputs in
  `Env`.
* `android_webhook` and `trigger_daily_checkin` mirror the two Flask
  handlers; their results carry the HTTP status code, the JSON body
  (as a tagged variant), the action trace, and the log lines.
-/

set_option maxRecDepth 8000

abbrev Str := List Char

/-- Whitespace characters stripped by Python `str.strip()`. -/
def pyWs (c : Char) : Bool :=
  c = ' ' || c = '\t' || c = '\n' || c = '\r' || c = '\x0b' || c = '\x0c'

/-- Python `str.strip()`: drop whitespace from both ends. -/
def pyStrip (s : Str) : Str :=
  ((s.dropWhile pyWs).reverse.dropWhile pyWs).reverse

/-- Python `str.lower()` (ASCII case folding, as used by the handler). -/
def toLowerStr (s : Str) : Str := s.map Char.toLower

/-- `startsWith hay needle` : does `hay` start with `needle`? -/
def startsWith : Str → Str → Bool
  | _, [] => true
  | [], _ :: _ => false
  | c :: h, d :: n => c = d && startsWith h n

/-- Python `needle in hay` : substring containment. -/
def containsSub : Str → Str → Bool
  | [], n => n.isEmpty
  | c :: t, n => startsWith (c :: t) n || containsSub t n

/-- Regex word character (`\w`): letter, digit or underscore. -/
def isWordChar (c : Char) : Bool := c.isAlphanum || c = '_'

/-- A word boundary `\b` holds next to a digit iff the adjacent character
(if any) is not a word character. -/
def boundaryOk : Option Char → Bool
  | none => true
  | some c => !isWordChar c

/-- Python `int` applied to a single matched digit. -/
def digitVal (c : Char) : Nat := c.toNat - '0'.toNat

/-- One match attempt of `\b(10|[1-9])\b` at the head of `s`, where `prev`
is the character immediately before the current position (`none` at the
start of the string).  The alternative `10` is tried before `[1-9]`, as the
regex engine does. -/
def matchAt (prev : Option Char) (s : Str) : Option Nat :=
  match s with
  | [] => none
  | c :: rest =>
    if boundaryOk prev then
      if c = '1' ∧ rest.head? = some '0' then
        -- the alternative `10`; when the boundary after the `0` fails, the
        -- alternative `[1-9]` also fails at this position, because the
        -- character after the `1` is the word character `0`
        if boundaryOk (rest.drop 1).head? then some 10 else none
      else if c = '1' then
        if boundaryOk rest.head? then some 1 else none
      else if '1' ≤ c ∧ c ≤ '9' then
        if boundaryOk rest.head? then some (digitVal c) else none
      else none
    else none

/-- `re.search`: try a match at every position, left to right. -/
def searchUrgency (prev : Option Char) (s : Str) : Option Nat :=
  match s with
  | [] => none
  | c :: rest =>
    match matchAt prev (c :: rest) with
    | some v => some v
    | none => searchUrgency (some c) rest

/-- `re.search(r'\b(10|[1-9])\b', body)` followed by `int(...)` on the
match, `none` when there is no match. -/
def extractUrgency (s : Str) : Option Nat := searchUrgency none s

/-- A row read back from the sheet, as built by `get_last_entries`
(all four cells are strings, as `get_all_values` returns them). -/
structure Entry where
  date : Str
  time : Str
  body : Str
  urgency : Str
deriving DecidableEq, Repr

/-- `get_last_entries` keeps a row only when `len(row) >= 4`, taking the
first four cells. -/
def rowToEntry : List Str → Option Entry
  | d :: t :: b :: u :: _ => some ⟨d, t, b, u⟩
  | _ => none

/-- `get_last_entries(count)` from src/app.py: fetch all rows, return `[]`
when at most one row exists, otherwise skip the first (header) row, keep
the last `count` rows, and convert the well-formed ones. -/
def get_last_entries (count : Nat) (all_values : List (List Str)) : List Entry :=
  if all_values.length ≤ 1 then []
  else
    let data_rows := all_values.drop 1
    let last_rows :=
      if data_rows.length ≥ count then data_rows.drop (data_rows.length - count)
      else data_rows
    last_rows.filterMap rowToEntry

/-- `get_sheet_url()`: pure string construction from the sheet id. -/
def get_sheet_url (sheet_id : Str) : Str :=
  "https://docs.google.com/spreadsheets/d/".toList ++ sheet_id

/-- Observable remote calls made by the handlers: one sheet append
(`append_row`), one sheet read (`get_all_values`), one notifier push.
These are the only store or notifier operations the program performs:
there is no update or delete operation anywhere in src/app.py. -/
inductive Effect where
  | storeAppend (date time body : Str) (urgency : Nat)
  | storeRead
  | notify (message : Str)
deriving DecidableEq, Repr

def Effect.isNotify : Effect → Bool
  | notify _ => true
  | _ => false

def Effect.isStoreOp : Effect → Bool
  | storeAppend _ _ _ _ => true
  | storeRead => true
  | _ => false

def Effect.isStoreMutation : Effect → Bool
  | storeAppend _ _ _ _ => true
  | _ => false

/-- `send_sms_via_android`: fires one push request and swallows every
failure (unconfigured URL, HTTP error, timeout) into a `False` result.
`notifierOk` is whether the outbound call would succeed. -/
def send_sms_via_android (notifierOk : Bool) (message_text : Str) : Bool × List Effect :=
  (notifierOk, [Effect.notify message_text])

/-- The ambient state a request runs against: configured sheet id, the
current date and time (as `datetime.now()` would format them), the sheet
contents a read would return, and whether a notifier push would succeed. -/
structure Env where
  sheet_id : Str
  today : Str
  nowTime : Str
  store : List (List Str)
  notifierOk : Bool
deriving DecidableEq, Repr

/-- `append_symptom_log`: append `[date, time, body, urgency]` and return
`True`. -/
def append_symptom_log (env : Env) (body : Str) (urgency : Nat) : Bool × List Effect :=
  (true, [Effect.storeAppend env.today env.nowTime body urgency])

/-- An ASCII apostrophe (several literal strings in src/app.py use it). -/
def apostrophe : Char := Char.ofNat 39

/-- Message prefix of the link reply (the literal bytes in src/app.py are
mojibake of a chart emoji). -/
def linkMsgHead : Str := "ðŸ“Š Your symptom log: ".toList

def noEntriesMsg : Str := "No symptom entries recorded yet.".toList

def summaryHeader : Str := "ðŸ“‹ Last 3 entries:".toList

def bulletStr : Str := "â€¢".toList

/-- One summary line: bullet, date, first 30 characters of the body, the
urgency. -/
def entryLine (e : Entry) : Str :=
  bulletStr ++ " ".toList ++ e.date ++ ": ".toList ++ e.body.take 30 ++
    "... (Urgency: ".toList ++ e.urgency ++ ")".toList

/-- Python `"\n".join`. -/
def joinNL : List Str → Str
  | [] => []
  | [l] => l
  | l :: ls => l ++ '\n' :: joinNL ls

def summaryText (entries : List Entry) : Str :=
  joinNL (summaryHeader :: entries.map entryLine)

def loggedMsg : Str := "Logged. ".toList ++ "âœ…".toList

def helpMsg : Str :=
  "I didn".toList ++ [apostrophe] ++ "t understand that. Send:\n".toList ++
  bulletStr ++ " Symptoms with urgency 1-10 to log\n".toList ++
  bulletStr ++ " ".toList ++ [apostrophe] ++ "Link".toList ++ [apostrophe] ++
    " for spreadsheet URL\n".toList ++
  bulletStr ++ " ".toList ++ [apostrophe] ++ "Summary".toList ++ [apostrophe] ++
    " for recent entries".toList

/-- JSON body of a webhook response, one tag per branch of the handler. -/
inductive RespBody where
  | errorEmptyBody
  | sentLink
  | sentSummary (entriesCount : Nat)
  | loggedSymptom (urgency : Nat)
  | sentHelp
deriving DecidableEq, Repr

structure WebhookResult where
  statusCode : Nat
  respBody : RespBody
  trace : List Effect
  logs : List Str
deriving DecidableEq, Repr

/-- The `/android-webhook` handler, for a request whose JSON payload
decoded to `{"sender": sender, "body": rawBody}` (`sender = none` when the
key is absent). -/
def android_webhook (env : Env) (sender : Option Str) (rawBody : Str) : WebhookResult :=
  let senderStr := sender.getD ("unknown".toList)
  let body := pyStrip rawBody
  if body.isEmpty then
    { statusCode := 400, respBody := RespBody.errorEmptyBody, trace := [], logs := [] }
  else
    let logLine := "Received SMS from ".toList ++ senderStr ++ ": ".toList ++ body
    let body_lower := toLowerStr body
    if containsSub body_lower ("link".toList) then
      let sheet_url := get_sheet_url env.sheet_id
      let sent := send_sms_via_android env.notifierOk (linkMsgHead ++ sheet_url)
      { statusCode := 200, respBody := RespBody.sentLink, trace := sent.2, logs := [logLine] }
    else if containsSub body_lower ("summary".toList) then
      let entries := get_last_entries 3 env.store
      let sent :=
        if entries.isEmpty then send_sms_via_android env.notifierOk noEntriesMsg
        else send_sms_via_android env.notifierOk (summaryText entries)
      { statusCode := 200, respBody := RespBody.sentSummary entries.length,
        trace := Effect.storeRead :: sent.2, logs := [logLine] }
    else
      match extractUrgency body with
      | some urgency =>
        let appended := append_symptom_log env body urgency
        let sent := send_sms_via_android env.notifierOk loggedMsg
        { statusCode := 200, respBody := RespBody.loggedSymptom urgency,
          trace := appended.2 ++ sent.2, logs := [logLine] }
      | none =>
        let sent := send_sms_via_android env.notifierOk helpMsg
        { statusCode := 200, respBody := RespBody.sentHelp, trace := sent.2, logs := [logLine] }

inductive CronBody where
  | errNotConfigured
  | errBadSecret
  | checkinSent
  | errSendFailed
deriving DecidableEq, Repr

structure CronResult where
  statusCode : Nat
  respBody : CronBody
  trace : List Effect
deriving DecidableEq, Repr

def checkinMsg : Str :=
  "How were your symptoms today? Rate urgency (1-10) and describe.".toList

/-- Python truthiness of the `CRON_SECRET` setting: an unset variable
(`none`) and the empty string are both falsy. -/
def secretConfigured : Option Str → Bool
  | none => false
  | some s => !s.isEmpty

/-- The `/trigger-daily-checkin` handler.  `providedSecret` is the
`secret` query parameter (`none` when absent). -/
def trigger_daily_checkin (cronSecret : Option Str) (providedSecret : Option Str)
    (notifierOk : Bool) : CronResult :=
  if !secretConfigured cronSecret then
    { statusCode := 500, respBody := CronBody.errNotConfigured, trace := [] }
  else if providedSecret ≠ cronSecret then
    { statusCode := 403, respBody := CronBody.errBadSecret, trace := [] }
  else
    let sent := send_sms_via_android notifierOk checkinMsg
    if sent.1 then
      { statusCode := 200, respBody := CronBody.checkinSent, trace := sent.2 }
    else
      { statusCode := 500, respBody := CronBody.errSendFailed, trace := sent.2 }

/-- The decimal digits of a token value 1..10 (used only for the
specification-side description of the regex). -/
def digitsOfTok : Nat → Str
  | 1 => ['1']
  | 2 => ['2']
  | 3 => ['3']
  | 4 => ['4']
  | 5 => ['5']
  | 6 => ['6']
  | 7 => ['7']
  | 8 => ['8']
  | 9 => ['9']
  | 10 => ['1', '0']
  | _ => []

/-- The character just before position `i` of `s` is a boundary (start of
string, or a non-word character). -/
def preOkAt (s : Str) (i : Nat) : Bool :=
  match (s.take i).getLast? with
  | none => true
  | some c => !isWordChar c

/-- Specification-side statement, written from the spec's words: a
standalone token with value `v ∈ [1,10]` occurs at position `i` of `s`,
bounded by word boundaries on both sides. -/
def standaloneAtPos (s : Str) (i v : Nat) : Bool :=
  decide (1 ≤ v) && decide (v ≤ 10) &&
  startsWith (s.drop i) (digitsOfTok v) &&
  preOkAt s i &&
  boundaryOk ((s.drop (i + (digitsOfTok v).length)).head?)

/-- Specification-side statement: `v` is the value of the first standalone
token of `s`, scanning left to right.  (Values above 10 never form a
token — see `standaloneAtPos_false_of_gt`. ) -/
def FirstStandalone (s : Str) (v : Nat) : Prop :=
  ∃ i, standaloneAtPos s i v = true ∧
    ∀ j, j < i → ∀ w, w ≤ 10 → standaloneAtPos s j w = false

/-- Internal decomposition form of a standalone-token occurrence, used by
the induction: `prev` is the character before `s` (as in `matchAt`), the
token sits after `pre` and before `post`. -/
def preOkC : Option Char → Str → Bool
  | prev, [] => boundaryOk prev
  | _, c :: rest => preOkC (some c) rest

def TokDecomp (prev : Option Char) (s : Str) (v : Nat) (pre post : Str) : Prop :=
  1 ≤ v ∧ v ≤ 10 ∧ s = pre ++ digitsOfTok v ++ post ∧
  preOkC prev pre = true ∧ boundaryOk post.head? = true

/-- The diagnostic line `app.logger.info` writes for an accepted request. -/
def logLine (sender : Option Str) (body : Str) : Str :=
  "Received SMS from ".toList ++ sender.getD ("unknown".toList) ++
    ": ".toList ++ body

/-- Specification-side description of the summary read, written from the
spec's words: read all rows, discard a header row, and take the last
`n` entries (or fewer if the store holds fewer). -/
def specLastEntries (n : Nat) (rows : List (List Str)) : List Entry :=
  let entries := (rows.drop 1).filterMap rowToEntry
  entries.drop (entries.length - n)

/-- The sheet row holding an entry, in the column order used by
`append_symptom_log`. -/
def entryRow (e : Entry) : List Str := [e.date, e.time, e.body, e.urgency]

/-- A sample environment for concrete evaluations. -/
def sampleEnv : Env :=
  { sheet_id := "SHEETID123".toList
    today := "2026-01-01".toList
    nowTime := "12:00:00".toList
    store := []
    notifierOk := true }

example : extractUrgency ("Headache today, urgency 7".toList) = some 7 := by decide
example : extractUrgency ("100mg".toList) = none := by decide
example : extractUrgency ("11".toList) = none := by decide
example : extractUrgency ("0".toList) = none := by decide
example : extractUrgency ("took 100mg, pain 10 now".toList) = some 10 := by decide
example : pyStrip ("   ".toList) = [] := by decide
example : containsSub ("unlinked".toList) ("link".toList) = true := by decide
example : (android_webhook sampleEnv none ("hello".toList)).respBody = RespBody.sentHelp := by decide

/-! ### Basic string lemmas -/

theorem startsWith_iff (h n : Str) : startsWith h n = true ↔ n <+: h := by
  induction n generalizing h with
  | nil => simp [startsWith]
  | cons d n ih =>
    cases h with
    | nil => simp [startsWith]
    | cons c t =>
      simp only [startsWith, Bool.and_eq_true, decide_eq_true_eq, ih,
        List.cons_prefix_cons]
      constructor
      · rintro ⟨h1, h2⟩; exact ⟨h1.symm, h2⟩
      · rintro ⟨h1, h2⟩; exact ⟨h1.symm, h2⟩

theorem containsSub_iff (h n : Str) : containsSub h n = true ↔ n <:+: h := by
  induction h with
  | nil => simp [containsSub, List.infix_nil, List.isEmpty_iff]
  | cons c t ih =>
    rw [containsSub]
    simp [startsWith_iff, ih, List.infix_cons_iff]

theorem ws_not_word (c : Char) (h : pyWs c = true) : isWordChar c = false := by
  simp only [pyWs, Bool.or_eq_true, decide_eq_true_eq] at h
  rcases h with ((((rfl | rfl) | rfl) | rfl) | rfl) | rfl <;> decide

theorem toLower_ws (c : Char) (h : pyWs c = true) : Char.toLower c = c := by
  simp only [pyWs, Bool.or_eq_true, decide_eq_true_eq] at h
  rcases h with ((((rfl | rfl) | rfl) | rfl) | rfl) | rfl <;> decide

theorem pyStrip_decomp (s : Str) :
    ∃ w w', (∀ c ∈ w, pyWs c = true) ∧ (∀ c ∈ w', pyWs c = true) ∧
      s = w ++ pyStrip s ++ w' := by
  refine ⟨s.takeWhile pyWs, ((s.dropWhile pyWs).reverse.takeWhile pyWs).reverse,
    ?_, ?_, ?_⟩
  · intro c hc; exact List.mem_takeWhile_imp hc
  · intro c hc; rw [List.mem_reverse] at hc; exact List.mem_takeWhile_imp hc
  · have hm : s.dropWhile pyWs =
        pyStrip s ++ ((s.dropWhile pyWs).reverse.takeWhile pyWs).reverse := by
      conv_lhs => rw [← List.reverse_reverse (s.dropWhile pyWs),
        ← List.takeWhile_append_dropWhile pyWs (s.dropWhile pyWs).reverse]
      rw [List.reverse_append]
      rfl
    conv_lhs => rw [← List.takeWhile_append_dropWhile pyWs s, hm]
    rw [List.append_assoc]

theorem dropWhile_append_all {p : Char → Bool} (a x : Str)
    (h : ∀ c ∈ a, p c = true) : (a ++ x).dropWhile p = x.dropWhile p := by
  induction a with
  | nil => rfl
  | cons c a ih =>
    have hc := h c (by simp)
    rw [List.cons_append, List.dropWhile_cons, if_pos hc]
    exact ih (fun d hd => h d (by simp [hd]))

theorem infix_dropWhile {p : Char → Bool} (n : Str) (hne : n ≠ [])
    (hnp : ∀ c ∈ n, p c = false) :
    ∀ l : Str, n <:+: l → n <:+: l.dropWhile p := by
  intro l
  induction l with
  | nil => exact fun h => h
  | cons c l ih =>
    intro h
    rw [List.dropWhile_cons]
    by_cases hp : p c = true
    · rw [if_pos hp]
      rcases List.infix_cons_iff.mp h with hpre | hinf
      · cases n with
        | nil => exact absurd rfl hne
        | cons d m =>
          obtain ⟨hdc, -⟩ := List.cons_prefix_cons.mp hpre
          have hd := hnp d (by simp)
          rw [hdc, hp] at hd
          exact absurd hd (by simp)
      · exact ih hinf
    · rw [if_neg hp]
      exact h

theorem infix_of_suffix {l₁ l₂ : Str} (h : l₁ <:+ l₂) : l₁ <:+: l₂ := by
  obtain ⟨t, ht⟩ := h
  exact ⟨t, [], by simp [ht]⟩

theorem infix_map {l₁ l₂ : Str} (f : Char → Char) (h : l₁ <:+: l₂) :
    l₁.map f <:+: l₂.map f := by
  obtain ⟨t, u, htu⟩ := h
  exact ⟨t.map f, u.map f, by rw [← htu]; simp⟩

theorem infix_mid (n a m b : Str) (hne : n ≠ []) (hnp : ∀ c ∈ n, pyWs c = false)
    (ha : ∀ c ∈ a, pyWs c = true) (hb : ∀ c ∈ b, pyWs c = true)
    (h : n <:+: a ++ m ++ b) : n <:+: m := by
  rw [List.append_assoc] at h
  have h1 : n <:+: (a ++ (m ++ b)).dropWhile pyWs := infix_dropWhile n hne hnp _ h
  rw [dropWhile_append_all a (m ++ b) ha] at h1
  have h2 : n <:+: m ++ b := h1.trans (infix_of_suffix (List.dropWhile_suffix pyWs))
  have h3 : n.reverse <:+: b.reverse ++ m.reverse := by
    have hr := h2.reverse
    rwa [List.reverse_append] at hr
  have h4 : n.reverse <:+: (b.reverse ++ m.reverse).dropWhile pyWs :=
    infix_dropWhile n.reverse (by simpa using hne)
      (fun c hc => hnp c (List.mem_reverse.mp hc)) _ h3
  rw [dropWhile_append_all _ _ (fun c hc => hb c (List.mem_reverse.mp hc))] at h4
  have h5 : n.reverse <:+: m.reverse :=
    h4.trans (infix_of_suffix (List.dropWhile_suffix pyWs))
  have h6 := h5.reverse
  simpa using h6

theorem toLowerStr_ws (w : Str) (hw : ∀ c ∈ w, pyWs c = true) :
    ∀ c ∈ toLowerStr w, pyWs c = true := by
  intro c hc
  rw [toLowerStr, List.mem_map] at hc
  obtain ⟨d, hd, rfl⟩ := hc
  rw [toLower_ws d (hw d hd)]
  exact hw d hd

theorem containsSub_strip_of_raw {n : Str} (s : Str) (hne : n ≠ [])
    (hnw : ∀ c ∈ n, pyWs c = false)
    (h : containsSub (toLowerStr s) n = true) :
    containsSub (toLowerStr (pyStrip s)) n = true := by
  rw [containsSub_iff] at h ⊢
  obtain ⟨w, w', hw, hw', hs⟩ := pyStrip_decomp s
  have hmap : toLowerStr s =
      toLowerStr w ++ toLowerStr (pyStrip s) ++ toLowerStr w' := by
    conv_lhs => rw [hs]
    simp [toLowerStr]
  rw [hmap] at h
  exact infix_mid n (toLowerStr w) _ (toLowerStr w') hne hnw
    (toLowerStr_ws w hw) (toLowerStr_ws w' hw') h

theorem containsSub_raw_of_strip {n : Str} (s : Str)
    (h : containsSub (toLowerStr (pyStrip s)) n = true) :
    containsSub (toLowerStr s) n = true := by
  rw [containsSub_iff] at h ⊢
  refine h.trans ?_
  obtain ⟨w, w', hw, hw', hs⟩ := pyStrip_decomp s
  exact infix_map Char.toLower ⟨w, w', hs.symm⟩

/-! ### The urgency regex: soundness and completeness of the scan -/

theorem digitsOfTok_ne_nil {v : Nat} (h1 : 1 ≤ v) (h10 : v ≤ 10) :
    digitsOfTok v ≠ [] := by
  interval_cases v <;> decide

theorem char_digit_cases (c : Char) (h1 : '1' ≤ c) (h9 : c ≤ '9') :
    c = '1' ∨ c = '2' ∨ c = '3' ∨ c = '4' ∨ c = '5' ∨ c = '6' ∨ c = '7' ∨
    c = '8' ∨ c = '9' := by
  have hl : (49 : Nat) ≤ c.toNat := Char.le_def.mp h1
  have hr : c.toNat ≤ 57 := Char.le_def.mp h9
  have hofn : Char.ofNat c.toNat = c := Char.ofNat_toNat c
  have hcase : c.toNat = 49 ∨ c.toNat = 50 ∨ c.toNat = 51 ∨ c.toNat = 52 ∨
      c.toNat = 53 ∨ c.toNat = 54 ∨ c.toNat = 55 ∨ c.toNat = 56 ∨
      c.toNat = 57 := by omega
  rcases hcase with h | h | h | h | h | h | h | h | h <;>
    (rw [h] at hofn; rw [← hofn]; decide)

theorem matchAt_cons (prev : Option Char) (c : Char) (rest : Str) :
    matchAt prev (c :: rest) =
      if boundaryOk prev then
        if c = '1' ∧ rest.head? = some '0' then
          if boundaryOk (rest.drop 1).head? then some 10 else none
        else if c = '1' then
          if boundaryOk rest.head? then some 1 else none
        else if '1' ≤ c ∧ c ≤ '9' then
          if boundaryOk rest.head? then some (digitVal c) else none
        else none
      else none := rfl

theorem searchUrgency_cons (prev : Option Char) (c : Char) (rest : Str) :
    searchUrgency prev (c :: rest) =
      match matchAt prev (c :: rest) with
      | some v => some v
      | none => searchUrgency (some c) rest := rfl

theorem matchAt_sound {prev : Option Char} {s : Str} {v : Nat}
    (h : matchAt prev s = some v) : ∃ post, TokDecomp prev s v [] post := by
  cases s with
  | nil => exact absurd h (by simp [matchAt])
  | cons c rest =>
    rw [matchAt_cons] at h
    by_cases hb : boundaryOk prev = true
    case neg => rw [if_neg hb] at h; cases h
    rw [if_pos hb] at h
    by_cases h10 : c = '1' ∧ rest.head? = some '0'
    · rw [if_pos h10] at h
      obtain ⟨hc, hh⟩ := h10
      subst hc
      cases rest with
      | nil => cases hh
      | cons d rest2 =>
        rw [List.head?_cons, Option.some.injEq] at hh
        subst hh
        by_cases hbp : boundaryOk ((('0' : Char) :: rest2).drop 1).head? = true
        · rw [if_pos hbp] at h
          obtain rfl : (10 : Nat) = v := by injection h
          exact ⟨rest2, by norm_num, by norm_num, rfl, hb, hbp⟩
        · rw [if_neg hbp] at h; cases h
    · rw [if_neg h10] at h
      by_cases hc : c = '1'
      · rw [if_pos hc] at h
        subst hc
        by_cases hbr : boundaryOk rest.head? = true
        · rw [if_pos hbr] at h
          obtain rfl : (1 : Nat) = v := by injection h
          exact ⟨rest, by norm_num, by norm_num, rfl, hb, hbr⟩
        · rw [if_neg hbr] at h; cases h
      · rw [if_neg hc] at h
        by_cases hd : '1' ≤ c ∧ c ≤ '9'
        · rw [if_pos hd] at h
          by_cases hbr : boundaryOk rest.head? = true
          · rw [if_pos hbr] at h
            have hv : digitVal c = v := by injection h
            obtain ⟨h1c, h9c⟩ := hd
            rcases char_digit_cases c h1c h9c with rfl|rfl|rfl|rfl|rfl|rfl|rfl|rfl|rfl
            all_goals first
              | exact absurd rfl hc
              | exact ⟨rest, by rw [← hv]; decide, by rw [← hv]; decide,
                  by rw [← hv]; rfl, hb, hbr⟩
          · rw [if_neg hbr] at h; cases h
        · rw [if_neg hd] at h; cases h

theorem matchAt_complete {prev : Option Char} {s : Str} {v : Nat} {post : Str}
    (h : TokDecomp prev s v [] post) : matchAt prev s = some v := by
  obtain ⟨h1, h10, hs, hpre, hpost⟩ := h
  have hb : boundaryOk prev = true := hpre
  subst hs
  have hd0 : ∀ c : Char, c ≠ '1' → '1' ≤ c → c ≤ '9' →
      matchAt prev (c :: post) = some (digitVal c) := by
    intro c hc h1c h9c
    rw [matchAt_cons, if_pos hb, if_neg (fun hx => hc hx.1), if_neg hc,
      if_pos ⟨h1c, h9c⟩, if_pos hpost]
  interval_cases v
  · show matchAt prev ('1' :: post) = some 1
    rw [matchAt_cons, if_pos hb,
      if_neg (fun hx => by rw [hx.2] at hpost; exact absurd hpost (by decide)),
      if_pos rfl, if_pos hpost]
  · show matchAt prev ('2' :: post) = some 2
    rw [hd0 '2' (by decide) (by decide) (by decide)]; decide
  · show matchAt prev ('3' :: post) = some 3
    rw [hd0 '3' (by decide) (by decide) (by decide)]; decide
  · show matchAt prev ('4' :: post) = some 4
    rw [hd0 '4' (by decide) (by decide) (by decide)]; decide
  · show matchAt prev ('5' :: post) = some 5
    rw [hd0 '5' (by decide) (by decide) (by decide)]; decide
  · show matchAt prev ('6' :: post) = some 6
    rw [hd0 '6' (by decide) (by decide) (by decide)]; decide
  · show matchAt prev ('7' :: post) = some 7
    rw [hd0 '7' (by decide) (by decide) (by decide)]; decide
  · show matchAt prev ('8' :: post) = some 8
    rw [hd0 '8' (by decide) (by decide) (by decide)]; decide
  · show matchAt prev ('9' :: post) = some 9
    rw [hd0 '9' (by decide) (by decide) (by decide)]; decide
  · show matchAt prev ('1' :: '0' :: post) = some 10
    rw [matchAt_cons, if_pos hb, if_pos ⟨rfl, rfl⟩]
    show (if boundaryOk post.head? = true then some 10 else none) = some 10
    rw [if_pos hpost]

theorem search_first : ∀ (s : Str) (prev : Option Char) (v : Nat) (pre post : Str),
    TokDecomp prev s v pre post →
    (∀ v' pre' post', TokDecomp prev s v' pre' post' → pre.length ≤ pre'.length) →
    searchUrgency prev s = some v := by
  intro s
  induction s with
  | nil =>
    intro prev v pre post hdec _
    obtain ⟨h1, h10, hs, -, -⟩ := hdec
    exfalso
    have hne := digitsOfTok_ne_nil h1 h10
    cases pre with
    | nil =>
      rw [List.nil_append] at hs
      have h2 := hs.symm
      rw [List.append_eq_nil] at h2
      exact hne h2.1
    | cons p pre2 => cases hs
  | cons c rest ih =>
    intro prev v pre post hdec hmin
    cases pre with
    | nil =>
      have hm : matchAt prev (c :: rest) = some v := matchAt_complete hdec
      rw [searchUrgency_cons, hm]
    | cons p pre2 =>
      have hnone : matchAt prev (c :: rest) = none := by
        cases hmt : matchAt prev (c :: rest) with
        | none => rfl
        | some w =>
          obtain ⟨post2, hdec2⟩ := matchAt_sound hmt
          have hcon := hmin w [] post2 hdec2
          simp at hcon
      rw [searchUrgency_cons, hnone]
      obtain ⟨h1, h10, hs, hpre, hpost⟩ := hdec
      rw [List.cons_append] at hs
      injection hs with hcp hrest
      subst hcp
      apply ih (some c) v pre2 post ⟨h1, h10, hrest, hpre, hpost⟩
      intro v' pre' post' hdec'
      have hlift : TokDecomp prev (c :: rest) v' (c :: pre') post' := by
        obtain ⟨g1, g10, gs, gpre, gpost⟩ := hdec'
        exact ⟨g1, g10, by rw [gs, List.cons_append, List.cons_append], gpre, gpost⟩
      have hle := hmin v' (c :: pre') post' hlift
      simpa using hle

theorem preOkC_eq_getLast (prev : Option Char) (pre : Str) :
    preOkC prev pre = (match pre.getLast? with
      | none => boundaryOk prev
      | some c => !isWordChar c) := by
  induction pre generalizing prev with
  | nil => rfl
  | cons c pre ih =>
    cases pre with
    | nil => rfl
    | cons d pre2 =>
      rw [show preOkC prev (c :: d :: pre2) = preOkC (some c) (d :: pre2) from rfl]
      rw [ih (some c), List.getLast?_cons_cons]
      cases hgl : (d :: pre2).getLast? with
      | none => simp at hgl
      | some e => simp only [hgl]

theorem searchUrgency_bounds : ∀ (s : Str) (prev : Option Char) (v : Nat),
    searchUrgency prev s = some v → 1 ≤ v ∧ v ≤ 10 := by
  intro s
  induction s with
  | nil => intro prev v h; cases h
  | cons c rest ih =>
    intro prev v h
    rw [searchUrgency_cons] at h
    cases hmt : matchAt prev (c :: rest) with
    | some w =>
      rw [hmt] at h
      obtain ⟨post, hdec⟩ := matchAt_sound hmt
      obtain rfl : w = v := by
        simpa using h
      exact ⟨hdec.1, hdec.2.1⟩
    | none =>
      rw [hmt] at h
      exact ih (some c) v h

theorem standaloneAtPos_iff_decomp (s : Str) (i v : Nat) :
    standaloneAtPos s i v = true ↔
      ∃ pre post, pre.length = i ∧ TokDecomp none s v pre post := by
  constructor
  · intro h
    simp only [standaloneAtPos, Bool.and_eq_true, decide_eq_true_eq] at h
    obtain ⟨⟨⟨⟨h1, h10⟩, hsw⟩, hpre⟩, hbnd⟩ := h
    obtain ⟨post, hpost⟩ := (startsWith_iff _ _).mp hsw
    have hne := digitsOfTok_ne_nil h1 h10
    have hdne : s.drop i ≠ [] := by
      rw [← hpost]
      simp [List.append_eq_nil, hne]
    have hi : i < s.length := by
      by_contra hh
      push_neg at hh
      exact hdne (List.drop_eq_nil_of_le hh)
    refine ⟨s.take i, post, ?_, h1, h10, ?_, ?_, ?_⟩
    · rw [List.length_take]
      omega
    · rw [List.append_assoc, hpost, List.take_append_drop]
    · rw [preOkC_eq_getLast]
      rw [preOkAt] at hpre
      exact hpre
    · have hdp : s.drop (i + (digitsOfTok v).length) = post := by
        rw [← List.drop_drop, ← hpost, List.drop_left]
      rw [hdp] at hbnd
      exact hbnd
  · rintro ⟨pre, post, hlen, h1, h10, hs, hpre, hbnd⟩
    subst hlen
    simp only [standaloneAtPos, Bool.and_eq_true, decide_eq_true_eq]
    refine ⟨⟨⟨⟨h1, h10⟩, ?_⟩, ?_⟩, ?_⟩
    · rw [hs, List.append_assoc, List.drop_left]
      exact (startsWith_iff _ _).mpr ⟨post, rfl⟩
    · rw [preOkAt, hs, List.append_assoc, List.take_left]
      rw [preOkC_eq_getLast] at hpre
      exact hpre
    · have hdp : s.drop (pre.length + (digitsOfTok v).length) = post := by
        rw [hs, List.append_assoc, ← List.drop_drop, List.drop_left,
          List.drop_left]
      rw [hdp]
      exact hbnd

theorem standaloneAtPos_false_of_gt (s : Str) (j w : Nat) (h : 10 < w) :
    standaloneAtPos s j w = false := by
  simp only [standaloneAtPos]
  have hw : decide (w ≤ 10) = false := by simp; omega
  rw [hw]
  simp

/-- The regex scan returns exactly the value of the first standalone token,
whenever one exists. -/
theorem searchUrgency_of_firstStandalone {s : Str} {v : Nat}
    (h : FirstStandalone s v) : searchUrgency none s = some v := by
  obtain ⟨i, hpos, hbefore⟩ := h
  obtain ⟨pre, post, hlen, hdec⟩ := (standaloneAtPos_iff_decomp s i v).mp hpos
  apply search_first s none v pre post hdec
  intro v' pre' post' hdec'
  by_contra hlt
  push_neg at hlt
  have hpos' : standaloneAtPos s pre'.length v' = true :=
    (standaloneAtPos_iff_decomp s pre'.length v').mpr ⟨pre', post', rfl, hdec'⟩
  have hv10 : v' ≤ 10 := hdec'.2.1
  have hfalse := hbefore pre'.length (by omega) v' hv10
  rw [hfalse] at hpos'
  cases hpos'

/-! ### Stripping whitespace does not change the regex search -/

theorem matchAt_congr {prev prev' : Option Char}
    (h : boundaryOk prev = boundaryOk prev') (s : Str) :
    matchAt prev s = matchAt prev' s := by
  cases s with
  | nil => rfl
  | cons c rest => rw [matchAt_cons, matchAt_cons, h]

theorem searchUrgency_congr {prev prev' : Option Char}
    (h : boundaryOk prev = boundaryOk prev') (s : Str) :
    searchUrgency prev s = searchUrgency prev' s := by
  cases s with
  | nil => rfl
  | cons c rest => rw [searchUrgency_cons, searchUrgency_cons, matchAt_congr h]

theorem matchAt_ws_none {c : Char} (hc : pyWs c = true)
    (prev : Option Char) (rest : Str) : matchAt prev (c :: rest) = none := by
  have hword := ws_not_word c hc
  have hc1 : c ≠ '1' := by
    intro h
    rw [h] at hword
    exact absurd hword (by decide)
  have hc9 : ¬('1' ≤ c ∧ c ≤ '9') := by
    rintro ⟨ha, hb⟩
    rcases char_digit_cases c ha hb with rfl|rfl|rfl|rfl|rfl|rfl|rfl|rfl|rfl <;>
      exact absurd hword (by decide)
  by_cases hb : boundaryOk prev = true
  · rw [matchAt_cons, if_pos hb, if_neg (fun hx => hc1 hx.1), if_neg hc1,
      if_neg hc9]
  · rw [matchAt_cons, if_neg hb]

theorem searchUrgency_ws_all (w : Str) (hw : ∀ c ∈ w, pyWs c = true) :
    ∀ prev, searchUrgency prev w = none := by
  induction w with
  | nil => intro prev; rfl
  | cons c rest ih =>
    intro prev
    rw [searchUrgency_cons, matchAt_ws_none (hw c (by simp))]
    exact ih (fun d hd => hw d (by simp [hd])) (some c)

theorem searchUrgency_ws_prepend (w : Str) (hw : ∀ c ∈ w, pyWs c = true) :
    ∀ (prev : Option Char), boundaryOk prev = true →
    ∀ s, searchUrgency prev (w ++ s) = searchUrgency none s := by
  induction w with
  | nil =>
    intro prev hprev s
    rw [List.nil_append]
    exact searchUrgency_congr (by rw [hprev]; rfl) s
  | cons c rest ih =>
    intro prev hprev s
    rw [List.cons_append, searchUrgency_cons, matchAt_ws_none (hw c (by simp))]
    show searchUrgency (some c) (rest ++ s) = searchUrgency none s
    exact ih (fun d hd => hw d (by simp [hd])) (some c)
      (by simp [boundaryOk, ws_not_word c (hw c (by simp))]) s

theorem boundaryOk_ws_append (x w : Str) (hw : ∀ c ∈ w, pyWs c = true) :
    boundaryOk (x ++ w).head? = boundaryOk x.head? := by
  cases x with
  | nil =>
    cases w with
    | nil => rfl
    | cons wc w' =>
      rw [List.nil_append, List.head?_cons]
      simp [boundaryOk, ws_not_word wc (hw wc (by simp))]
  | cons a x' => rfl

theorem head_zero_ws_append (x w : Str) (hw : ∀ c ∈ w, pyWs c = true) :
    ((x ++ w).head? = some '0') = (x.head? = some '0') := by
  cases x with
  | nil =>
    cases w with
    | nil => rfl
    | cons wc w' =>
      rw [List.nil_append, List.head?_cons, List.head?_nil]
      have hwc := hw wc (by simp)
      have hwc0 : wc ≠ '0' := by
        intro h
        rw [h] at hwc
        exact absurd hwc (by decide)
      simp [hwc0]
  | cons a x' => rfl

theorem boundaryOk_drop_ws (x w : Str) (hw : ∀ c ∈ w, pyWs c = true) (n : Nat) :
    boundaryOk ((x ++ w).drop n).head? = boundaryOk (x.drop n).head? := by
  rw [List.drop_append_eq_append_drop]
  exact boundaryOk_ws_append (x.drop n) (w.drop (n - x.length))
    (fun c hc => hw c (List.mem_of_mem_drop hc))

theorem matchAt_append_ws (w : Str) (hw : ∀ c ∈ w, pyWs c = true)
    (prev : Option Char) (s : Str) :
    matchAt prev (s ++ w) = matchAt prev s := by
  cases s with
  | nil =>
    cases w with
    | nil => rfl
    | cons wc w' =>
      rw [List.nil_append, matchAt_ws_none (hw wc (by simp))]
      rfl
  | cons c rest =>
    rw [List.cons_append, matchAt_cons, matchAt_cons]
    simp only [head_zero_ws_append rest w hw, boundaryOk_ws_append rest w hw,
      boundaryOk_drop_ws rest w hw 1]

theorem searchUrgency_append_ws (w : Str) (hw : ∀ c ∈ w, pyWs c = true) :
    ∀ (s : Str) (prev : Option Char),
      searchUrgency prev (s ++ w) = searchUrgency prev s := by
  intro s
  induction s with
  | nil =>
    intro prev
    rw [List.nil_append]
    exact searchUrgency_ws_all w hw prev
  | cons c rest ih =>
    intro prev
    rw [List.cons_append, searchUrgency_cons, searchUrgency_cons,
      ← List.cons_append, matchAt_append_ws w hw prev]
    cases hmt : matchAt prev (c :: rest) with
    | some v => rfl
    | none => exact ih (some c)

/-- The handler trims the body before searching; trimming does not change
the result of the regex search. -/
theorem extractUrgency_strip (s : Str) :
    extractUrgency (pyStrip s) = extractUrgency s := by
  obtain ⟨w, w', hw, hw', hs⟩ := pyStrip_decomp s
  rw [extractUrgency, extractUrgency]
  conv_rhs => rw [hs]
  rw [searchUrgency_append_ws w' hw' (w ++ pyStrip s) none,
    searchUrgency_ws_prepend w hw none rfl (pyStrip s)]

/-! ### Branch characterization of the webhook handler -/

theorem android_webhook_dispatch (env : Env) (sender : Option Str)
    (rawBody : Str) (hne : pyStrip rawBody ≠ []) :
    android_webhook env sender rawBody =
      (if containsSub (toLowerStr (pyStrip rawBody)) ("link".toList) = true then
         { statusCode := 200, respBody := RespBody.sentLink,
           trace := [Effect.notify (linkMsgHead ++ get_sheet_url env.sheet_id)],
           logs := [logLine sender (pyStrip rawBody)] }
       else if containsSub (toLowerStr (pyStrip rawBody)) ("summary".toList) = true then
         { statusCode := 200,
           respBody := RespBody.sentSummary (get_last_entries 3 env.store).length,
           trace := [Effect.storeRead,
             Effect.notify
               (if (get_last_entries 3 env.store).isEmpty then noEntriesMsg
                else summaryText (get_last_entries 3 env.store))],
           logs := [logLine sender (pyStrip rawBody)] }
       else
         match extractUrgency (pyStrip rawBody) with
         | some urgency =>
           { statusCode := 200, respBody := RespBody.loggedSymptom urgency,
             trace := [Effect.storeAppend env.today env.nowTime
                 (pyStrip rawBody) urgency,
               Effect.notify loggedMsg],
             logs := [logLine sender (pyStrip rawBody)] }
         | none =>
           { statusCode := 200, respBody := RespBody.sentHelp,
             trace := [Effect.notify helpMsg],
             logs := [logLine sender (pyStrip rawBody)] }) := by
  have hemp : ¬((pyStrip rawBody).isEmpty = true) := by
    rw [List.isEmpty_iff]
    exact hne
  simp only [android_webhook, send_sms_via_android, append_symptom_log]
  rw [if_neg hemp]
  by_cases h1 : containsSub (toLowerStr (pyStrip rawBody)) ("link".toList) = true
  · rw [if_pos h1, if_pos h1]
    rfl
  · rw [if_neg h1, if_neg h1]
    by_cases h2 :
        containsSub (toLowerStr (pyStrip rawBody)) ("summary".toList) = true
    · rw [if_pos h2, if_pos h2]
      by_cases h3 : (get_last_entries 3 env.store).isEmpty = true
      · rw [if_pos h3, if_pos h3]
        rfl
      · rw [if_neg h3, if_neg h3]
        rfl
    · rw [if_neg h2, if_neg h2]
      cases hu : extractUrgency (pyStrip rawBody) with
      | some u => rfl
      | none => rfl

/-! ### Claim theorems -/

/-- C5: a webhook request whose body is empty or whitespace-only after
trimming is answered with HTTP 400 and produces no side effect at all:
no store append, no store read, no notifier send. -/
theorem c5_empty_body_rejected_no_side_effects (env : Env) (sender : Option Str)
    (rawBody : Str) (h : pyStrip rawBody = []) :
    android_webhook env sender rawBody =
      { statusCode := 400, respBody := RespBody.errorEmptyBody,
        trace := [], logs := [] } := by
  have hemp : (pyStrip rawBody).isEmpty = true := by
    rw [List.isEmpty_iff]
    exact h
  simp only [android_webhook]
  rw [if_pos hemp]

/-- Witness for C5 at the whitespace-only body `"   "`. -/
theorem c5_empty_body_rejected_no_side_effects_witness :
    android_webhook sampleEnv none ("   ".toList) =
      { statusCode := 400, respBody := RespBody.errorEmptyBody,
        trace := [], logs := [] } :=
  c5_empty_body_rejected_no_side_effects sampleEnv none ("   ".toList) (by decide)

/-- C2: any body containing the substring `link` in any case takes the
`sent_link` branch: HTTP 200, action `sent_link`, exactly one notifier send
whose message contains the store's public URL, and no store operation. -/
theorem c2_link_takes_priority (env : Env) (sender : Option Str) (rawBody : Str)
    (hlink : containsSub (toLowerStr rawBody) ("link".toList) = true) :
    (android_webhook env sender rawBody).statusCode = 200 ∧
    (android_webhook env sender rawBody).respBody = RespBody.sentLink ∧
    (android_webhook env sender rawBody).trace =
      [Effect.notify (linkMsgHead ++ get_sheet_url env.sheet_id)] ∧
    containsSub (linkMsgHead ++ get_sheet_url env.sheet_id)
      (get_sheet_url env.sheet_id) = true := by
  have hlink' : containsSub (toLowerStr (pyStrip rawBody)) ("link".toList) = true :=
    containsSub_strip_of_raw rawBody (by decide) (by decide) hlink
  have hne : pyStrip rawBody ≠ [] := by
    intro h0
    rw [h0] at hlink'
    exact absurd hlink' (by decide)
  have hmsg : containsSub (linkMsgHead ++ get_sheet_url env.sheet_id)
      (get_sheet_url env.sheet_id) = true := by
    rw [containsSub_iff]
    exact ⟨linkMsgHead, [], by simp⟩
  rw [android_webhook_dispatch env sender rawBody hne, if_pos hlink']
  exact ⟨rfl, rfl, rfl, hmsg⟩

/-- Witness for C2 at body `"send LiNk please"`. -/
theorem c2_link_takes_priority_witness :
    (android_webhook sampleEnv none ("send LiNk please".toList)).statusCode = 200 ∧
    (android_webhook sampleEnv none ("send LiNk please".toList)).respBody =
      RespBody.sentLink ∧
    (android_webhook sampleEnv none ("send LiNk please".toList)).trace =
      [Effect.notify (linkMsgHead ++ get_sheet_url sampleEnv.sheet_id)] ∧
    containsSub (linkMsgHead ++ get_sheet_url sampleEnv.sheet_id)
      (get_sheet_url sampleEnv.sheet_id) = true :=
  c2_link_takes_priority sampleEnv none ("send LiNk please".toList) (by decide)

/-- C1: a body without `link`/`summary` whose first standalone token is
`v ∈ [1,10]` is classified as a log entry with urgency exactly `v`; the
tokens `0`, `11`, `100` and digits embedded in a larger token (`100mg`)
do not match and fall through to the help reply. -/
theorem c1_first_standalone_token_logged (env : Env) (sender : Option Str)
    (rawBody : Str) (v : Nat)
    (hlink : containsSub (toLowerStr rawBody) ("link".toList) = false)
    (hsum : containsSub (toLowerStr rawBody) ("summary".toList) = false)
    (hfirst : FirstStandalone rawBody v) :
    ((android_webhook env sender rawBody).statusCode = 200 ∧
     (android_webhook env sender rawBody).respBody = RespBody.loggedSymptom v) ∧
    ((android_webhook sampleEnv none ("0".toList)).respBody = RespBody.sentHelp ∧
     (android_webhook sampleEnv none ("11".toList)).respBody = RespBody.sentHelp ∧
     (android_webhook sampleEnv none ("100".toList)).respBody = RespBody.sentHelp ∧
     (android_webhook sampleEnv none ("100mg".toList)).respBody = RespBody.sentHelp) := by
  have hsearch : extractUrgency rawBody = some v :=
    searchUrgency_of_firstStandalone hfirst
  have hstrip : extractUrgency (pyStrip rawBody) = some v := by
    rw [extractUrgency_strip]
    exact hsearch
  have hne : pyStrip rawBody ≠ [] := by
    intro h0
    rw [h0] at hstrip
    rw [show extractUrgency ([] : Str) = none from rfl] at hstrip
    cases hstrip
  have hlink' : containsSub (toLowerStr (pyStrip rawBody)) ("link".toList) = false := by
    cases hx : containsSub (toLowerStr (pyStrip rawBody)) ("link".toList) with
    | false => rfl
    | true =>
      rw [containsSub_raw_of_strip rawBody hx] at hlink
      cases hlink
  have hsum' : containsSub (toLowerStr (pyStrip rawBody)) ("summary".toList) = false := by
    cases hx : containsSub (toLowerStr (pyStrip rawBody)) ("summary".toList) with
    | false => rfl
    | true =>
      rw [containsSub_raw_of_strip rawBody hx] at hsum
      cases hsum
  refine ⟨?_, by decide, by decide, by decide, by decide⟩
  rw [android_webhook_dispatch env sender rawBody hne,
    if_neg (fun hx => by rw [hx] at hlink'; cases hlink'),
    if_neg (fun hx => by rw [hx] at hsum'; cases hsum'),
    hstrip]
  exact ⟨rfl, rfl⟩

/-- Witness for C1 at body `"urgency 7"`, whose first standalone token is
`7` at position 8. -/
theorem c1_first_standalone_token_logged_witness :
    ((android_webhook sampleEnv none ("urgency 7".toList)).statusCode = 200 ∧
     (android_webhook sampleEnv none ("urgency 7".toList)).respBody =
       RespBody.loggedSymptom 7) ∧
    ((android_webhook sampleEnv none ("0".toList)).respBody = RespBody.sentHelp ∧
     (android_webhook sampleEnv none ("11".toList)).respBody = RespBody.sentHelp ∧
     (android_webhook sampleEnv none ("100".toList)).respBody = RespBody.sentHelp ∧
     (android_webhook sampleEnv none ("100mg".toList)).respBody = RespBody.sentHelp) :=
  c1_first_standalone_token_logged sampleEnv none ("urgency 7".toList) 7
    (by decide) (by decide) ⟨8, by decide, by decide⟩

theorem filterMap_length_all {α β : Type} (f : α → Option β) (l : List α)
    (h : ∀ x ∈ l, (f x).isSome) : (l.filterMap f).length = l.length := by
  induction l with
  | nil => rfl
  | cons a l ih =>
    cases hfa : f a with
    | none =>
      have hs := h a (by simp)
      rw [hfa] at hs
      cases hs
    | some b =>
      rw [List.filterMap_cons, hfa]
      simp only [List.length_cons, ih (fun x hx => h x (by simp [hx]))]

theorem filterMap_drop_all {α β : Type} (f : α → Option β) (l : List α)
    (h : ∀ x ∈ l, (f x).isSome) :
    ∀ k : Nat, (l.drop k).filterMap f = (l.filterMap f).drop k := by
  induction l with
  | nil => intro k; simp
  | cons a l ih =>
    intro k
    cases k with
    | zero => simp
    | succ k2 =>
      rw [List.drop_succ_cons]
      cases hfa : f a with
      | none =>
        have hs := h a (by simp)
        rw [hfa] at hs
        cases hs
      | some b =>
        rw [List.filterMap_cons, hfa, List.drop_succ_cons]
        exact ih (fun x hx => h x (by simp [hx])) k2

/-- On a store whose data rows are all well-formed (at least four cells),
the code's summary read agrees with the spec's description of it. -/
theorem get_last_entries_eq_spec (n : Nat) (rows : List (List Str))
    (hwf : ∀ r ∈ rows.drop 1, (rowToEntry r).isSome) :
    get_last_entries n rows = specLastEntries n rows := by
  by_cases h1 : rows.length ≤ 1
  · rw [get_last_entries, if_pos h1]
    have hd : rows.drop 1 = [] := List.drop_eq_nil_of_le h1
    simp [specLastEntries, hd]
  · rw [get_last_entries, if_neg h1]
    simp only [specLastEntries]
    have hlen : ((rows.drop 1).filterMap rowToEntry).length =
        (rows.drop 1).length := filterMap_length_all rowToEntry (rows.drop 1) hwf
    by_cases hge : (rows.drop 1).length ≥ n
    · rw [if_pos hge, filterMap_drop_all rowToEntry (rows.drop 1) hwf, hlen]
    · rw [if_neg hge, hlen]
      push_neg at hge
      rw [show (rows.drop 1).length - n = 0 by omega, List.drop_zero]

/-- C3: on a summary request (no `link`, contains `summary`) the handler
reads the store once, then sends exactly one notification: the fixed
no-entries text when nothing remains after discarding the header row,
otherwise the formatted bullet list; the response is HTTP 200 with action
`sent_summary` and the entry count.  On a well-formed store the entries
are exactly the spec's "all rows, minus a header row, last 3". -/
theorem c3_summary_reads_store_and_notifies (env : Env) (sender : Option Str)
    (rawBody : Str) (hne : pyStrip rawBody ≠ [])
    (hlink : containsSub (toLowerStr (pyStrip rawBody)) ("link".toList) = false)
    (hsum : containsSub (toLowerStr (pyStrip rawBody)) ("summary".toList) = true) :
    (android_webhook env sender rawBody).statusCode = 200 ∧
    (android_webhook env sender rawBody).respBody =
      RespBody.sentSummary (get_last_entries 3 env.store).length ∧
    (android_webhook env sender rawBody).trace =
      [Effect.storeRead,
       Effect.notify (if (get_last_entries 3 env.store).isEmpty then noEntriesMsg
         else summaryText (get_last_entries 3 env.store))] ∧
    ((∀ r ∈ env.store.drop 1, (rowToEntry r).isSome) →
      get_last_entries 3 env.store = specLastEntries 3 env.store) := by
  rw [android_webhook_dispatch env sender rawBody hne,
    if_neg (fun hx => by rw [hx] at hlink; cases hlink),
    if_pos hsum]
  exact ⟨rfl, rfl, rfl, fun hwf => get_last_entries_eq_spec 3 env.store hwf⟩

/-- Witness for C3 at body `"Summary"` over the empty store. -/
theorem c3_summary_reads_store_and_notifies_witness :
    (android_webhook sampleEnv none ("Summary".toList)).statusCode = 200 ∧
    (android_webhook sampleEnv none ("Summary".toList)).respBody =
      RespBody.sentSummary (get_last_entries 3 sampleEnv.store).length ∧
    (android_webhook sampleEnv none ("Summary".toList)).trace =
      [Effect.storeRead,
       Effect.notify (if (get_last_entries 3 sampleEnv.store).isEmpty then noEntriesMsg
         else summaryText (get_last_entries 3 sampleEnv.store))] ∧
    ((∀ r ∈ sampleEnv.store.drop 1, (rowToEntry r).isSome) →
      get_last_entries 3 sampleEnv.store = specLastEntries 3 sampleEnv.store) :=
  c3_summary_reads_store_and_notifies sampleEnv none ("Summary".toList)
    (by decide) (by decide) (by decide)

/-- C4: with five well-formed rows and no header row, a `"Summary"` body
returns the last three entries in chronological order, and the message
formats each of them (`entryLine` truncates the body to 30 characters). -/
theorem c4_summary_last_three_of_five (env : Env) (sender : Option Str)
    (e1 e2 e3 e4 e5 : Entry)
    (hstore : env.store =
      [entryRow e1, entryRow e2, entryRow e3, entryRow e4, entryRow e5]) :
    get_last_entries 3 env.store = [e3, e4, e5] ∧
    (android_webhook env sender ("Summary".toList)).statusCode = 200 ∧
    (android_webhook env sender ("Summary".toList)).respBody =
      RespBody.sentSummary 3 ∧
    (android_webhook env sender ("Summary".toList)).trace =
      [Effect.storeRead,
       Effect.notify
         (joinNL [summaryHeader, entryLine e3, entryLine e4, entryLine e5])] := by
  have hget : get_last_entries 3 env.store = [e3, e4, e5] := by
    rw [hstore]
    rfl
  have hl : ¬(containsSub (toLowerStr (pyStrip ("Summary".toList)))
      ("link".toList) = true) := by decide
  have hs2 : containsSub (toLowerStr (pyStrip ("Summary".toList)))
      ("summary".toList) = true := by decide
  refine ⟨hget, ?_⟩
  rw [android_webhook_dispatch env sender ("Summary".toList) (by decide),
    if_neg hl, if_pos hs2, hget]
  exact ⟨rfl, rfl, rfl⟩

/-- Witness for C4 with five concrete entries. -/
theorem c4_summary_last_three_of_five_witness :
    get_last_entries 3
      ({ sampleEnv with store :=
        [entryRow ⟨"d1".toList, "t1".toList, "b1".toList, "1".toList⟩,
         entryRow ⟨"d2".toList, "t2".toList, "b2".toList, "2".toList⟩,
         entryRow ⟨"d3".toList, "t3".toList, "b3".toList, "3".toList⟩,
         entryRow ⟨"d4".toList, "t4".toList, "b4".toList, "4".toList⟩,
         entryRow ⟨"d5".toList, "t5".toList, "b5".toList, "5".toList⟩] } : Env).store =
      [⟨"d3".toList, "t3".toList, "b3".toList, "3".toList⟩,
       ⟨"d4".toList, "t4".toList, "b4".toList, "4".toList⟩,
       ⟨"d5".toList, "t5".toList, "b5".toList, "5".toList⟩] ∧
    (android_webhook
      ({ sampleEnv with store :=
        [entryRow ⟨"d1".toList, "t1".toList, "b1".toList, "1".toList⟩,
         entryRow ⟨"d2".toList, "t2".toList, "b2".toList, "2".toList⟩,
         entryRow ⟨"d3".toList, "t3".toList, "b3".toList, "3".toList⟩,
         entryRow ⟨"d4".toList, "t4".toList, "b4".toList, "4".toList⟩,
         entryRow ⟨"d5".toList, "t5".toList, "b5".toList, "5".toList⟩] } : Env)
      none ("Summary".toList)).statusCode = 200 ∧
    (android_webhook
      ({ sampleEnv with store :=
        [entryRow ⟨"d1".toList, "t1".toList, "b1".toList, "1".toList⟩,
         entryRow ⟨"d2".toList, "t2".toList, "b2".toList, "2".toList⟩,
         entryRow ⟨"d3".toList, "t3".toList, "b3".toList, "3".toList⟩,
         entryRow ⟨"d4".toList, "t4".toList, "b4".toList, "4".toList⟩,
         entryRow ⟨"d5".toList, "t5".toList, "b5".toList, "5".toList⟩] } : Env)
      none ("Summary".toList)).respBody = RespBody.sentSummary 3 ∧
    (android_webhook
      ({ sampleEnv with store :=
        [entryRow ⟨"d1".toList, "t1".toList, "b1".toList, "1".toList⟩,
         entryRow ⟨"d2".toList, "t2".toList, "b2".toList, "2".toList⟩,
         entryRow ⟨"d3".toList, "t3".toList, "b3".toList, "3".toList⟩,
         entryRow ⟨"d4".toList, "t4".toList, "b4".toList, "4".toList⟩,
         entryRow ⟨"d5".toList, "t5".toList, "b5".toList, "5".toList⟩] } : Env)
      none ("Summary".toList)).trace =
      [Effect.storeRead,
       Effect.notify
         (joinNL [summaryHeader,
           entryLine ⟨"d3".toList, "t3".toList, "b3".toList, "3".toList⟩,
           entryLine ⟨"d4".toList, "t4".toList, "b4".toList, "4".toList⟩,
           entryLine ⟨"d5".toList, "t5".toList, "b5".toList, "5".toList⟩])] :=
  c4_summary_last_three_of_five _ none
    ⟨"d1".toList, "t1".toList, "b1".toList, "1".toList⟩
    ⟨"d2".toList, "t2".toList, "b2".toList, "2".toList⟩
    ⟨"d3".toList, "t3".toList, "b3".toList, "3".toList⟩
    ⟨"d4".toList, "t4".toList, "b4".toList, "4".toList⟩
    ⟨"d5".toList, "t5".toList, "b5".toList, "5".toList⟩ rfl

theorem webhook_notifierOk_irrelevant (env : Env) (b : Bool)
    (sender : Option Str) (rawBody : Str) :
    android_webhook { env with notifierOk := b } sender rawBody =
      android_webhook env sender rawBody := by
  by_cases hne : pyStrip rawBody = []
  · have hemp : (pyStrip rawBody).isEmpty = true := by
      rw [List.isEmpty_iff]
      exact hne
    simp only [android_webhook]
    rw [if_pos hemp, if_pos hemp]
  · rw [android_webhook_dispatch _ sender rawBody hne,
      android_webhook_dispatch env sender rawBody hne]

theorem webhook_status_200 (env : Env) (sender : Option Str) (rawBody : Str)
    (hne : pyStrip rawBody ≠ []) :
    (android_webhook env sender rawBody).statusCode = 200 := by
  rw [android_webhook_dispatch env sender rawBody hne]
  by_cases h1 : containsSub (toLowerStr (pyStrip rawBody)) ("link".toList) = true
  · rw [if_pos h1]
  · rw [if_neg h1]
    by_cases h2 :
        containsSub (toLowerStr (pyStrip rawBody)) ("summary".toList) = true
    · rw [if_pos h2]
    · rw [if_neg h2]
      cases hu : extractUrgency (pyStrip rawBody) with
      | some u => rfl
      | none => rfl

/-- C6: the notifier's success or failure is a boolean the webhook
discards: the HTTP status is 200 and the status and action fields do not
depend on whether the outbound push would succeed. -/
theorem c6_notifier_failure_keeps_success (env : Env) (sender : Option Str)
    (rawBody : Str) (b1 b2 : Bool) (hne : pyStrip rawBody ≠ []) :
    (android_webhook { env with notifierOk := b1 } sender rawBody).statusCode = 200 ∧
    (android_webhook { env with notifierOk := b1 } sender rawBody).statusCode =
      (android_webhook { env with notifierOk := b2 } sender rawBody).statusCode ∧
    (android_webhook { env with notifierOk := b1 } sender rawBody).respBody =
      (android_webhook { env with notifierOk := b2 } sender rawBody).respBody := by
  have hirr : android_webhook { env with notifierOk := b1 } sender rawBody =
      android_webhook { env with notifierOk := b2 } sender rawBody := by
    rw [webhook_notifierOk_irrelevant env b1 sender rawBody,
      webhook_notifierOk_irrelevant env b2 sender rawBody]
  refine ⟨?_, by rw [hirr], by rw [hirr]⟩
  rw [webhook_notifierOk_irrelevant env b1 sender rawBody]
  exact webhook_status_200 env sender rawBody hne

/-- Witness for C6 at body `"hello"` with a failing (`false`) and a
succeeding (`true`) notifier. -/
theorem c6_notifier_failure_keeps_success_witness :
    (android_webhook { sampleEnv with notifierOk := false } none
      ("hello".toList)).statusCode = 200 ∧
    (android_webhook { sampleEnv with notifierOk := false } none
      ("hello".toList)).statusCode =
      (android_webhook { sampleEnv with notifierOk := true } none
        ("hello".toList)).statusCode ∧
    (android_webhook { sampleEnv with notifierOk := false } none
      ("hello".toList)).respBody =
      (android_webhook { sampleEnv with notifierOk := true } none
        ("hello".toList)).respBody :=
  c6_notifier_failure_keeps_success sampleEnv none ("hello".toList) false true
    (by decide)

/-- C7: the cron endpoint answers 500 when the secret is unconfigured,
403 with no notifier call when the provided secret is missing or not
exactly equal to the configured one, and only on an exact match sends the
fixed check-in prompt, reporting 200 or 500 from the notifier's result. -/
theorem c7_cron_secret_gate (cronSecret providedSecret : Option Str) (ok : Bool) :
    (secretConfigured cronSecret = false →
      trigger_daily_checkin cronSecret providedSecret ok =
        { statusCode := 500, respBody := CronBody.errNotConfigured, trace := [] }) ∧
    (secretConfigured cronSecret = true → providedSecret ≠ cronSecret →
      trigger_daily_checkin cronSecret providedSecret ok =
        { statusCode := 403, respBody := CronBody.errBadSecret, trace := [] }) ∧
    (secretConfigured cronSecret = true → providedSecret = cronSecret →
      trigger_daily_checkin cronSecret providedSecret ok =
        { statusCode := if ok then 200 else 500,
          respBody := if ok then CronBody.checkinSent else CronBody.errSendFailed,
          trace := [Effect.notify checkinMsg] }) := by
  refine ⟨?_, ?_, ?_⟩
  · intro hc
    simp only [trigger_daily_checkin]
    rw [if_pos (by rw [hc]; rfl)]
  · intro hc hp
    simp only [trigger_daily_checkin]
    rw [if_neg (by rw [hc]; decide), if_pos hp]
  · intro hc hp
    simp only [trigger_daily_checkin]
    rw [if_neg (by rw [hc]; decide), if_neg (fun hx => hx hp)]
    cases ok with
    | true => rfl
    | false => rfl

/-- Witness for C7: one instance of each of the three cases. -/
theorem c7_cron_secret_gate_witness :
    trigger_daily_checkin none (some ("s".toList)) true =
      { statusCode := 500, respBody := CronBody.errNotConfigured, trace := [] } ∧
    trigger_daily_checkin (some ("s".toList)) (some ("t".toList)) true =
      { statusCode := 403, respBody := CronBody.errBadSecret, trace := [] } ∧
    trigger_daily_checkin (some ("s".toList)) (some ("s".toList)) false =
      { statusCode := 500, respBody := CronBody.errSendFailed,
        trace := [Effect.notify checkinMsg] } :=
  ⟨(c7_cron_secret_gate none (some ("s".toList)) true).1 rfl,
   (c7_cron_secret_gate (some ("s".toList)) (some ("t".toList)) true).2.1
     rfl (by decide),
   (c7_cron_secret_gate (some ("s".toList)) (some ("s".toList)) false).2.2
     rfl rfl⟩

/-- C8: for every accepted request the recorded side effects are, in
order, at most one store operation followed by exactly one notifier send;
no execution performs a second notifier send or a second store mutation. -/
theorem c8_effect_order_and_multiplicity (env : Env) (sender : Option Str)
    (rawBody : Str) (hne : pyStrip rawBody ≠ []) :
    (∃ m, (android_webhook env sender rawBody).trace = [Effect.notify m] ∨
       ∃ a, a.isStoreOp = true ∧
         (android_webhook env sender rawBody).trace = [a, Effect.notify m]) ∧
    (android_webhook env sender rawBody).trace.countP Effect.isNotify = 1 ∧
    (android_webhook env sender rawBody).trace.countP Effect.isStoreMutation ≤ 1 := by
  rw [android_webhook_dispatch env sender rawBody hne]
  by_cases h1 : containsSub (toLowerStr (pyStrip rawBody)) ("link".toList) = true
  · rw [if_pos h1]
    exact ⟨⟨linkMsgHead ++ get_sheet_url env.sheet_id, Or.inl rfl⟩, rfl,
      Nat.zero_le 1⟩
  · rw [if_neg h1]
    by_cases h2 :
        containsSub (toLowerStr (pyStrip rawBody)) ("summary".toList) = true
    · rw [if_pos h2]
      refine ⟨⟨(if (get_last_entries 3 env.store).isEmpty then noEntriesMsg
        else summaryText (get_last_entries 3 env.store)),
        Or.inr ⟨Effect.storeRead, rfl, rfl⟩⟩, rfl, Nat.zero_le 1⟩
    · rw [if_neg h2]
      cases hu : extractUrgency (pyStrip rawBody) with
      | some u =>
        refine ⟨⟨loggedMsg, Or.inr
          ⟨Effect.storeAppend env.today env.nowTime (pyStrip rawBody) u,
            rfl, rfl⟩⟩, rfl, ?_⟩
        show 1 ≤ 1
        exact Nat.le_refl 1
      | none => exact ⟨⟨helpMsg, Or.inl rfl⟩, rfl, Nat.zero_le 1⟩

/-- Witness for C8 at body `"hello"`. -/
theorem c8_effect_order_and_multiplicity_witness :
    (∃ m, (android_webhook sampleEnv none ("hello".toList)).trace =
        [Effect.notify m] ∨
       ∃ a, a.isStoreOp = true ∧
         (android_webhook sampleEnv none ("hello".toList)).trace =
           [a, Effect.notify m]) ∧
    (android_webhook sampleEnv none
      ("hello".toList)).trace.countP Effect.isNotify = 1 ∧
    (android_webhook sampleEnv none
      ("hello".toList)).trace.countP Effect.isStoreMutation ≤ 1 :=
  c8_effect_order_and_multiplicity sampleEnv none ("hello".toList) (by decide)

/-- C9: every row this system appends carries an urgency in `[1,10]` equal
to the value extracted from the message, stores the full trimmed body
unmodified with the current date and time, and the cron handler never
mutates the store.  (The embedding has no update or delete operation: the
program only ever calls `append_row` and `get_all_values`.) -/
theorem c9_appended_rows_invariant (env : Env) (sender : Option Str)
    (rawBody : Str) :
    (∀ d t b u,
      Effect.storeAppend d t b u ∈ (android_webhook env sender rawBody).trace →
        (1 ≤ u ∧ u ≤ 10) ∧ b = pyStrip rawBody ∧
        extractUrgency (pyStrip rawBody) = some u ∧
        d = env.today ∧ t = env.nowTime) ∧
    (∀ cronSecret providedSecret ok a,
      a ∈ (trigger_daily_checkin cronSecret providedSecret ok).trace →
        a.isStoreMutation = false) := by
  constructor
  · intro d t b u hmem
    by_cases hne : pyStrip rawBody = []
    · have hemp : (pyStrip rawBody).isEmpty = true := by
        rw [List.isEmpty_iff]
        exact hne
      have he : android_webhook env sender rawBody =
          { statusCode := 400, respBody := RespBody.errorEmptyBody,
            trace := [], logs := [] } := by
        simp only [android_webhook]
        rw [if_pos hemp]
      rw [he] at hmem
      cases hmem
    · rw [android_webhook_dispatch env sender rawBody hne] at hmem
      by_cases h1 :
          containsSub (toLowerStr (pyStrip rawBody)) ("link".toList) = true
      · rw [if_pos h1] at hmem
        simp at hmem
      · rw [if_neg h1] at hmem
        by_cases h2 :
            containsSub (toLowerStr (pyStrip rawBody)) ("summary".toList) = true
        · rw [if_pos h2] at hmem
          simp at hmem
        · rw [if_neg h2] at hmem
          cases hu : extractUrgency (pyStrip rawBody) with
          | none =>
            rw [hu] at hmem
            simp at hmem
          | some u0 =>
            rw [hu] at hmem
            simp at hmem
            obtain ⟨hd, ht, hb, hu'⟩ := hmem
            subst hd; subst ht; subst hb; subst hu'
            exact ⟨searchUrgency_bounds (pyStrip rawBody) none u hu, rfl, rfl,
              rfl, rfl⟩
  · intro cronSecret providedSecret ok a hmem
    simp only [trigger_daily_checkin] at hmem
    by_cases h1 : (!secretConfigured cronSecret) = true
    · rw [if_pos h1] at hmem
      cases hmem
    · rw [if_neg h1] at hmem
      by_cases h2 : providedSecret ≠ cronSecret
      · rw [if_pos h2] at hmem
        cases hmem
      · rw [if_neg h2] at hmem
        cases ok with
        | true =>
          simp [send_sms_via_android] at hmem
          subst hmem
          rfl
        | false =>
          simp [send_sms_via_android] at hmem
          subst hmem
          rfl

/-- Witness for C9 at body `"urgency 7"`: the appended row carries
urgency 7, the trimmed body, and the request date and time. -/
theorem c9_appended_rows_invariant_witness :
    (1 ≤ 7 ∧ 7 ≤ 10) ∧
    "urgency 7".toList = pyStrip ("urgency 7".toList) ∧
    extractUrgency (pyStrip ("urgency 7".toList)) = some 7 ∧
    "2026-01-01".toList = sampleEnv.today ∧
    "12:00:00".toList = sampleEnv.nowTime :=
  (c9_appended_rows_invariant sampleEnv none ("urgency 7".toList)).1
    ("2026-01-01".toList) ("12:00:00".toList) ("urgency 7".toList) 7 (by decide)

theorem webhook_sender_proj_eq (env : Env) (rawBody : Str) (s1 s2 : Option Str) :
    (android_webhook env s1 rawBody).statusCode =
      (android_webhook env s2 rawBody).statusCode ∧
    (android_webhook env s1 rawBody).respBody =
      (android_webhook env s2 rawBody).respBody ∧
    (android_webhook env s1 rawBody).trace =
      (android_webhook env s2 rawBody).trace := by
  by_cases hne : pyStrip rawBody = []
  · have hemp : (pyStrip rawBody).isEmpty = true := by
      rw [List.isEmpty_iff]
      exact hne
    have e1 : android_webhook env s1 rawBody =
        { statusCode := 400, respBody := RespBody.errorEmptyBody,
          trace := [], logs := [] } := by
      simp only [android_webhook]
      rw [if_pos hemp]
    have e2 : android_webhook env s2 rawBody =
        { statusCode := 400, respBody := RespBody.errorEmptyBody,
          trace := [], logs := [] } := by
      simp only [android_webhook]
      rw [if_pos hemp]
    rw [e1, e2]
    exact ⟨rfl, rfl, rfl⟩
  · rw [android_webhook_dispatch env s1 rawBody hne,
      android_webhook_dispatch env s2 rawBody hne]
    by_cases h1 :
        containsSub (toLowerStr (pyStrip rawBody)) ("link".toList) = true
    · rw [if_pos h1, if_pos h1]
      exact ⟨rfl, rfl, rfl⟩
    · rw [if_neg h1, if_neg h1]
      by_cases h2 :
          containsSub (toLowerStr (pyStrip rawBody)) ("summary".toList) = true
      · rw [if_pos h2, if_pos h2]
        exact ⟨rfl, rfl, rfl⟩
      · rw [if_neg h2, if_neg h2]
        cases hu : extractUrgency (pyStrip rawBody) with
        | some u => exact ⟨rfl, rfl, rfl⟩
        | none => exact ⟨rfl, rfl, rfl⟩

/-- C10: two requests with the same body receive the same HTTP status,
the same response body, and the same store/notifier effects whatever
their `sender` fields are; a missing sender behaves exactly like the
sender string `unknown` (including the diagnostic log line). -/
theorem c10_sender_never_influences_dispatch (env : Env) (rawBody : Str)
    (s1 s2 : Option Str) :
    (android_webhook env s1 rawBody).statusCode =
      (android_webhook env s2 rawBody).statusCode ∧
    (android_webhook env s1 rawBody).respBody =
      (android_webhook env s2 rawBody).respBody ∧
    (android_webhook env s1 rawBody).trace =
      (android_webhook env s2 rawBody).trace ∧
    android_webhook env none rawBody =
      android_webhook env (some ("unknown".toList)) rawBody := by
  obtain ⟨p1, p2, p3⟩ := webhook_sender_proj_eq env rawBody s1 s2
  exact ⟨p1, p2, p3, rfl⟩
